import Mathlib

/-!
Shallow embedding of the `command` package (shebang-go/command, src/command.go).

The package wraps process execution: two per-stream line readers
(`readStream`), a fan-in merger (`merge` / its per-channel `multiplex`
bodies), an execution controller (`Execute` with its `resultReader`
goroutine), and the finalization step (`wait`).

Modelling conventions:
  * Go errors are `Option Err` (`none` = nil); `Err` carries the message
    produced by `errors.New`.
  * A byte stream feeding a `bufio.Scanner` is modelled by the list of
    lines the scanner yields plus an optional terminal read error
    (`scanner.Err()`), which is exactly the interface `readStream`
    consumes.
  * Channel contents are lists; goroutine side effects are explicit
    action traces in program/happens-before order.  The nondeterministic
    fan-in of the two `multiplex` goroutines into `mergedStream` is the
    `Interleaving` relation; the `select` on `ctx.Done()` is modelled by
    a Boolean oracle saying which branch the select takes.
  * `exec.CommandContext` / `exec.Cmd` (process spawn, pipes, exit
    status) is the external collaborator: it is a `ProcessEnv` record of
    the outcomes the code observes from it.
-/

/-- A Go error value (`errors.New(msg)`); `Option Err` models a possibly
nil `error`. -/
structure Err where
  msg : String
deriving DecidableEq, Repr

/-- `streamData` struct: one scanned line (or terminal read error) tagged
with its origin. -/
structure streamData where
  data : String
  isStderr : Bool
  err : Option Err
deriving DecidableEq, Repr

/-- `newStreamData(data, err)` constructor: the `err` field stays nil. -/
def newStreamData (data : String) (errStream : Bool) : streamData :=
  { data := data, isStderr := errStream, err := none }

/-- `(*streamData).Stdout()`. -/
def streamData.Stdout (s : streamData) : List String :=
  if !s.isStderr then [s.data] else []

/-- `(*streamData).Stderr()`. -/
def streamData.Stderr (s : streamData) : List String :=
  if s.isStderr then [s.data] else []

/-- `(*streamData).Out()`. -/
def streamData.Out (s : streamData) : List String :=
  [s.data]

/-- `commandResult` struct: aggregated stdout/stderr lines (buffering
mode). -/
structure commandResult where
  stdout : List String
  stderr : List String
deriving DecidableEq, Repr

/-- `newCommandResult(stdout, stderr)`. -/
def newCommandResult (stdout stderr : List String) : commandResult :=
  { stdout := stdout, stderr := stderr }

/-- The `CommandData` interface: its two implementations are
`*streamData` (streaming events) and `*commandResult` (the aggregated
event). -/
inductive CommandData where
  | line (s : streamData)
  | result (r : commandResult)
deriving DecidableEq, Repr

/-- `CommandData.Stdout()` dispatch. -/
def CommandData.Stdout : CommandData → List String
  | .line s => s.Stdout
  | .result r => r.stdout

/-- `CommandData.Stderr()` dispatch. -/
def CommandData.Stderr : CommandData → List String
  | .line s => s.Stderr
  | .result r => r.stderr

/-- `commandEvent` struct (the `CommandEvent` interface): payload plus
optional error, read back via `Error()` and `Data()`. -/
structure commandEvent where
  data : CommandData
  err : Option Err
deriving DecidableEq, Repr

/-- `newCommandEvent(data, err)`. -/
def newCommandEvent (data : CommandData) (err : Option Err) : commandEvent :=
  { data := data, err := err }

/-- `commandState` struct (the `CommandState` interface): `exit` is the
zero-initialized exit code, `err` the final error. -/
structure commandState where
  exit : Int
  err : Option Err
deriving DecidableEq, Repr

/-! ### Construction (`NewCommand`, `NewCommandStream`) -/

/-- The observable fields of the `Command` struct that construction
touches (the channels, context and service wiring carry no data at
construction time). -/
structure Command where
  name : String
  args : List String
  stream : Bool
deriving Repr

/-- `commandOption`: a user option `func(*Command) error`; the returned
`Command` carries the mutation, the `Option Err` the returned error. -/
def commandOption := Command → Command × Option Err

/-- A variadic `args ...interface{}` argument of `NewCommand`: the
type switch recognizes `commandOption` and `string` (anything else is
silently ignored, which the model needs no case for). -/
inductive CmdArg where
  | str (s : String)
  | opt (o : commandOption)

/-- The `case string` arm of `NewCommand`'s type switch. -/
def argString : CmdArg → Option String
  | .str s => some s
  | .opt _ => none

/-- The `case commandOption` arm of `NewCommand`'s type switch. -/
def argOpt : CmdArg → Option commandOption
  | .str _ => none
  | .opt o => some o

/-- The option-application loop of `NewCommand`: apply each option in
order, returning the first non-nil error (with the Go `return nil, err`,
so the command pointer is dropped). -/
def applyOpts : List commandOption → Command → Option Command × Option Err
  | [], c => (some c, none)
  | o :: rest, c =>
    let r := o c
    match r.2 with
    | some e => (none, some e)
    | none => applyOpts rest r.1

/-- `NewCommand(ctx, name, args...)`: splits the variadic arguments into
string arguments and options, then applies the options.  Note there is
no validation of `name`. -/
def NewCommand (name : String) (args : List CmdArg) : Option Command × Option Err :=
  let cmd : Command :=
    { name := name
      args := args.filterMap argString
      stream := false }
  let userOpts := args.filterMap argOpt
  applyOpts userOpts cmd

/-- Outcome of `NewCommandStream`: either the Go return pair, or the
run-time fault of writing `cmd.stream` through a nil pointer. -/
inductive StreamResult where
  | ret (c : Command) (e : Option Err)
  | nilDeref

/-- `NewCommandStream(ctx, name, args...)`: calls `NewCommand`, then
unconditionally assigns `cmd.stream = true` BEFORE inspecting the error;
when `NewCommand` returned `(nil, err)` this assignment dereferences a
nil pointer. -/
def NewCommandStream (name : String) (args : List CmdArg) : StreamResult :=
  match NewCommand name args with
  | (some c, e) => .ret { c with stream := true } e
  | (none, _) => .nilDeref

/-! ### Reading, merging, waiting, executing -/

/-- What a `bufio.Scanner` over one pipe yields: the scanned lines in
order, then `scanner.Err()` (nil on clean EOF). -/
structure PipeSource where
  lines : List String
  readErr : Option Err
deriving DecidableEq, Repr

/-- `readStream(ctx, inStream, errStream)`: the channel contents the
reader goroutine produces when the context is not cancelled — one
`streamData` per scanned line, and, when the scanner reports a read
error, one final element with empty text carrying that error.
(Cancellation truncates this sequence; the claims about `readStream`
concern uncancelled executions, so the cancelled prefixes are not
modelled here.) -/
def readStream (src : PipeSource) (errStream : Bool) : List streamData :=
  src.lines.map (fun t => newStreamData t errStream) ++
    (match src.readErr with
     | none => []
     | some e => [{ newStreamData "" errStream with err := some e }])

/-- The `multiplex` closure inside `merge`: each received `streamData`
is re-wrapped as `newCommandEvent(newStreamData(i.data, i.isStderr), nil)`
— note that both the `err` field of the incoming element and the event
error are nil here. -/
def multiplex (chanData : List streamData) : List commandEvent :=
  chanData.map (fun i => newCommandEvent (.line (newStreamData i.data i.isStderr)) none)

/-- `zs` is a fair fan-in interleaving of `xs` and `ys`: the order the
two `multiplex` goroutines' sends appear on `mergedStream`. -/
inductive Interleaving {α : Type} : List α → List α → List α → Prop where
  | nil : Interleaving [] [] []
  | left : ∀ {x : α} {xs ys zs : List α},
      Interleaving xs ys zs → Interleaving (x :: xs) ys (x :: zs)
  | right : ∀ {y : α} {xs ys zs : List α},
      Interleaving xs ys zs → Interleaving xs (y :: ys) (y :: zs)

/-- Actions of the merge supervisor goroutine and of the `wait`
goroutine it spawns, in happens-before order. -/
inductive SupAction where
  | sendMerged (e : commandEvent)
  | closeReadDone
  | closeMerged
  | callWait
  | publishFinal (s : commandState)
  | closeFinal
deriving DecidableEq, Repr

/-- The state computation inside `(*Command).wait()`:
`state := &commandState{err: err}` (exit zero-initialized), then
`if err != nil { state.exit = c.processState.ExitCode() }`. -/
def waitStep (waitErr : Option Err) (recordedExit : Int) : commandState :=
  let state : commandState := { exit := 0, err := waitErr }
  match waitErr with
  | some _ => { state with exit := recordedExit }
  | none => state

/-- The body of the `wait` goroutine after `<-c.readDone` unblocks:
call `c.cmd.Wait()`, build the state, send it on `finalState`, and the
deferred close runs on return. -/
def waitBody (waitErr : Option Err) (recordedExit : Int) : List SupAction :=
  [.callWait, .publishFinal (waitStep waitErr recordedExit), .closeFinal]

/-- The happens-before trace of `merge`'s supervision: the multiplex
goroutines' sends (in their interleaved order) all precede `wg.Wait()`
returning; then the supervisor goroutine runs `close(c.readDone)`,
`close(mergedStream)` and `c.wait()` in program order, and the spawned
wait goroutine (whose `<-c.readDone` is already unblocked) follows. -/
def mergeTrace (merged : List commandEvent) (waitErr : Option Err)
    (recordedExit : Int) : List SupAction :=
  merged.map .sendMerged ++ [.closeReadDone, .closeMerged] ++ waitBody waitErr recordedExit

/-- What the `commandService` / `processState` collaborators (backed by
`exec.Cmd`) answer during one execution. -/
structure ProcessEnv where
  stdoutPipe : Except Err PipeSource
  stderrPipe : Except Err PipeSource
  startErr : Option Err
  waitErr : Option Err
  recordedExit : Int

/-- `(*Command).start()`: open the stdout pipe, then the stderr pipe,
then call `Start()`; the first error aborts synchronously and no streams
are produced.  On success both reader channels are attached. -/
def start (env : ProcessEnv) : Except Err (List streamData × List streamData) :=
  match env.stdoutPipe with
  | .error e => .error e
  | .ok po =>
    match env.stderrPipe with
    | .error e => .error e
    | .ok pe =>
      match env.startErr with
      | some e => .error e
      | none => .ok (readStream po false, readStream pe true)

/-- Actions the `resultReader` goroutine performs on the public
`outStream` channel. -/
inductive ExecAction where
  | sendOut (e : commandEvent)
  | closeOut
deriving DecidableEq, Repr

/-- Scheduler choices of one execution: the interleaved contents of the
merged channel, and which branch each `select` on `ctx.Done()` takes
(`ctxDoneAt i` for the i-th streaming forward, `ctxDoneFinal` for the
final aggregated send in buffering mode). -/
structure Sched where
  merged : List commandEvent
  ctxDoneAt : Nat → Bool
  ctxDoneFinal : Bool

/-- The streaming forward loop: for each incoming event the `select`
either observes `ctx.Done()` and breaks out of the loop, or forwards the
event to `outStream`. -/
def forward (done : Nat → Bool) : List commandEvent → Nat → List ExecAction
  | [], _ => []
  | v :: rest, i =>
    if done i then [] else .sendOut v :: forward done rest (i + 1)

/-- The buffering branch of the loop body: append `v.Data().Stderr()` to
the stderr accumulator if non-empty, then `v.Data().Stdout()` to the
stdout accumulator if non-empty (accumulator is the `(stdout, stderr)`
pair). -/
def accumEvent (acc : List String × List String) (v : commandEvent) :
    List String × List String :=
  let stderrAcc := if v.data.Stderr.length > 0 then acc.2 ++ v.data.Stderr else acc.2
  let stdoutAcc := if v.data.Stdout.length > 0 then acc.1 ++ v.data.Stdout else acc.1
  (stdoutAcc, stderrAcc)

/-- The `resultReader` goroutine of `Execute`: call `c.start()` and
return silently on error (no action on `outStream` at all); otherwise
stream mode forwards each event (a `ctx.Done()` observation breaks the
loop) and then closes `outStream`; buffering mode accumulates, then
sends the single aggregated event wrapped with `errors.New("no error")`
— through either `select` branch — and closes `outStream` only when the
non-`ctx.Done()` branch was taken. -/
def resultReader (stream : Bool) (env : ProcessEnv) (sched : Sched) :
    List ExecAction :=
  match start env with
  | .error _ => []
  | .ok _ =>
    if stream then
      forward sched.ctxDoneAt sched.merged 0 ++ [.closeOut]
    else
      let acc := sched.merged.foldl accumEvent ([], [])
      let event := newCommandEvent (.result (newCommandResult acc.1 acc.2))
        (some { msg := "no error" })
      if sched.ctxDoneFinal then [.sendOut event]
      else [.sendOut event, .closeOut]

/-- The synchronous returns of `(*Command).Execute()` plus the actions
of its spawned `resultReader` goroutine: `Execute` makes `outStream`,
spawns the goroutine, and returns `(outStream, nil)` unconditionally. -/
structure ExecuteResult where
  channelProduced : Bool
  retErr : Option Err
  trace : List ExecAction
deriving Repr

/-- `(*Command).Execute()`. -/
def Execute (stream : Bool) (env : ProcessEnv) (sched : Sched) : ExecuteResult :=
  { channelProduced := true
    retErr := none
    trace := resultReader stream env sched }

/-! ### Observers and helper values -/

/-- The events sent on `outStream`, in order. -/
def sentEvents (tr : List ExecAction) : List commandEvent :=
  tr.filterMap (fun a => match a with | .sendOut e => some e | .closeOut => none)

/-- How many times `outStream` is closed. -/
def countClose (tr : List ExecAction) : Nat :=
  tr.countP (fun a => match a with | .closeOut => true | .sendOut _ => false)

/-- The stdout-origin line texts of a list of events, in order. -/
def stdoutTexts (evs : List commandEvent) : List String :=
  evs.filterMap (fun e => match e.data with
    | .line sd => if sd.isStderr then none else some sd.data
    | .result _ => none)

/-- The stderr-origin line texts of a list of events, in order. -/
def stderrTexts (evs : List commandEvent) : List String :=
  evs.filterMap (fun e => match e.data with
    | .line sd => if sd.isStderr then some sd.data else none
    | .result _ => none)

/-- All line texts of a list of events, in order. -/
def lineTexts (evs : List commandEvent) : List String :=
  evs.filterMap (fun e => match e.data with
    | .line sd => some sd.data
    | .result _ => none)

/-- The merged event a stdout line `t` becomes after `multiplex`. -/
def stdoutEvent (t : String) : commandEvent :=
  newCommandEvent (.line (newStreamData t false)) none

/-- The merged event a stderr line `t` becomes after `multiplex`. -/
def stderrEvent (t : String) : commandEvent :=
  newCommandEvent (.line (newStreamData t true)) none

/-- Discriminators on supervisor actions. -/
def isCallWait : SupAction → Bool
  | .callWait => true | _ => false

def isSendMerged : SupAction → Bool
  | .sendMerged _ => true | _ => false

def isCloseFinal : SupAction → Bool
  | .closeFinal => true | _ => false

def isCloseReadDone : SupAction → Bool
  | .closeReadDone => true | _ => false

def isCloseMerged : SupAction → Bool
  | .closeMerged => true | _ => false

def isPublishFinal : SupAction → Bool
  | .publishFinal _ => true | _ => false

/-- Index of the first action satisfying `p`. -/
def firstIdx (p : SupAction → Bool) (tr : List SupAction) : Option Nat :=
  tr.findIdx? p

/-- A `ProcessEnv` whose stderr pipe fails to open (the
`CommandServiceMock{errStderrPipe: true}` scenario of the test suite). -/
def envStderrPipeFail : ProcessEnv :=
  { stdoutPipe := .ok { lines := ["test"], readErr := none }
    stderrPipe := .error { msg := "errStderrPipe" }
    startErr := none
    waitErr := none
    recordedExit := 0 }

/-- A `ProcessEnv` whose `Start()` call fails (the
`CommandServiceMock{errStart: true}` scenario of the test suite). -/
def envStartFail : ProcessEnv :=
  { stdoutPipe := .ok { lines := ["test"], readErr := none }
    stderrPipe := .ok { lines := ["test"], readErr := none }
    startErr := some { msg := "errStart" }
    waitErr := none
    recordedExit := 0 }

/-- A healthy `ProcessEnv` producing the given stdout/stderr lines. -/
def envFrom (out errL : List String) : ProcessEnv :=
  { stdoutPipe := .ok { lines := out, readErr := none }
    stderrPipe := .ok { lines := errL, readErr := none }
    startErr := none
    waitErr := none
    recordedExit := 0 }

/-- A `ProcessEnv` whose stdout stream fails mid-read. -/
def envReadErr : ProcessEnv :=
  { stdoutPipe := .ok { lines := ["line1"], readErr := some { msg := "errRead" } }
    stderrPipe := .ok { lines := [], readErr := none }
    startErr := none
    waitErr := none
    recordedExit := 0 }

/-- A scheduler where no `select` ever observes `ctx.Done()`. -/
def noCancelSched (merged : List commandEvent) : Sched :=
  { merged := merged, ctxDoneAt := fun _ => false, ctxDoneFinal := false }

/-- The no-cancellation scheduler with an empty merged stream. -/
def trivialSched : Sched := noCancelSched []

/-- A scheduler where `ctx.Done()` is observed at the final aggregated
send of buffering mode. -/
def cancelFinalSched (merged : List commandEvent) : Sched :=
  { merged := merged, ctxDoneAt := fun _ => false, ctxDoneFinal := true }

/-! ### Claims C8, C9 -/

/-- A list of plain string arguments yields exactly those strings. -/
theorem filterMap_argString_str (l : List String) :
    (l.map CmdArg.str).filterMap argString = l := by
  induction l with
  | nil => rfl
  | cons x xs ih => simp [argString, ih]

/-- A list of plain string arguments yields no options. -/
theorem filterMap_argOpt_str (l : List String) :
    (l.map CmdArg.str).filterMap argOpt = [] := by
  induction l with
  | nil => rfl
  | cons x xs ih => simp [argOpt, ih]

/-- C8 counterexample: calling the constructor with an empty program name
does NOT fail — `NewCommand(ctx, "", ...)` performs no name validation and
returns a command with a nil error. -/
theorem NewCommand_empty_name_succeeds :
    NewCommand "" [] = (some { name := "", args := [], stream := false }, none) := by
  rfl

/-- C8 (amended): construction never validates the program name: for any
empty-name call whose variadic arguments are plain strings, `NewCommand`
succeeds with a nil error and the empty name is kept (its failure can only
surface later, at process-start time, inside the external exec layer). -/
theorem NewCommand_empty_name_no_construction_error (strArgs : List String) :
    NewCommand "" (strArgs.map .str) =
      (some { name := "", args := strArgs, stream := false }, none) := by
  unfold NewCommand
  rw [filterMap_argString_str, filterMap_argOpt_str]
  rfl

/-- C9: whenever some variadic argument is a `commandOption` whose
application returns a non-nil error, `NewCommand` returns `(nil, err)` and
`NewCommandStream`'s unprotected `cmd.stream = true` dereferences the nil
command pointer: the error branch is never reached. -/
theorem NewCommandStream_nilDeref_on_option_error
    (name : String) (pre : List String) (o : commandOption)
    (hfail : ∀ c : Command, (o c).2.isSome) :
    NewCommandStream name (pre.map .str ++ [.opt o]) = .nilDeref := by
  unfold NewCommandStream NewCommand
  simp only [List.filterMap_append, filterMap_argString_str, filterMap_argOpt_str]
  have hcase : ∀ c : Command, ∃ e, (o c).2 = some e := by
    intro c
    exact Option.isSome_iff_exists.mp (hfail c)
  simp only [List.filterMap_cons, List.filterMap_nil, argString, argOpt]
  obtain ⟨e, he⟩ := hcase
    { name := name, args := pre, stream := false }
  simp [applyOpts, he]

/-- C9 witness: a concrete failing option (always returning the error
`test error`) drives `NewCommandStream` into the nil dereference. -/
theorem NewCommandStream_nilDeref_witness :
    NewCommandStream "git" ([ "help" ].map .str ++ [.opt (fun c => (c, some ⟨"test error"⟩))])
      = .nilDeref := by
  exact NewCommandStream_nilDeref_on_option_error "git" ["help"]
    (fun c => (c, some ⟨"test error"⟩)) (fun _ => rfl)

/-! ### Claim C1: read-before-wait ordering -/

/-- Forwarded multiplex sends contain no supervisor bookkeeping. -/
theorem countP_isCallWait_sendMerged (merged : List commandEvent) :
    (merged.map SupAction.sendMerged).countP isCallWait = 0 := by
  induction merged with
  | nil => rfl
  | cons x xs ih => simp [List.countP_cons, isCallWait, ih]

/-- C1 counterexample: in the supervisor trace of a run that delivered
one stdout line, the `readDone` gate closes at index 1 and the merged
event channel only closes at index 2: the gate fires strictly BEFORE the
merged event channel is closed, not after it as the claim states. -/
theorem C1_readDone_fires_before_merged_close :
    firstIdx isCloseReadDone (mergeTrace [stdoutEvent "hello"] none 0) = some 1 ∧
    firstIdx isCloseMerged (mergeTrace [stdoutEvent "hello"] none 0) = some 2 := by
  constructor <;> rfl

/-- C1 (amended): in every execution the supervisor trace decomposes as
all merged sends (both per-stream sequences ended), then the `readDone`
gate firing, then — in this order — the close of the merged channel, the
single wait call, the final-state publish and the final-state close: the
wait call is issued exactly once and strictly after the gate fires; the
gate itself fires after both stream sequences ended but immediately
BEFORE (not after) the merged channel is closed. -/
theorem C1_wait_once_after_readDone (merged : List commandEvent)
    (waitErr : Option Err) (recordedExit : Int) :
    ∃ pre : List SupAction,
      (∀ a ∈ pre, isSendMerged a = true) ∧
      mergeTrace merged waitErr recordedExit =
        pre ++ [.closeReadDone, .closeMerged, .callWait,
                .publishFinal (waitStep waitErr recordedExit), .closeFinal] ∧
      (mergeTrace merged waitErr recordedExit).countP isCallWait = 1 := by
  refine ⟨merged.map .sendMerged, ?_, ?_, ?_⟩
  · intro a ha
    obtain ⟨e, _, rfl⟩ := List.mem_map.mp ha
    rfl
  · simp [mergeTrace, waitBody]
  · simp [mergeTrace, waitBody, List.countP_append,
      countP_isCallWait_sendMerged, List.countP_cons, isCallWait]

/-! ### Claim C5: the final state -/

/-- C5: `wait`'s outcome mapping: a successful wait call publishes exit
code 0 and nil error; a failed wait call publishes that error together
with the process's recorded post-exit status (so a process that ended
with `exit 10` and a `recordedExit` of 10 yields exit code 10); the
final state is published exactly once and the final-state channel is
closed afterwards, as the last action of the wait goroutine. -/
theorem C5_final_state_mapping (e : Err) (recordedExit : Int) (w : Option Err) :
    waitStep none recordedExit = { exit := 0, err := none } ∧
    waitStep (some e) recordedExit = { exit := recordedExit, err := some e } ∧
    (waitBody w recordedExit).countP isPublishFinal = 1 ∧
    firstIdx isPublishFinal (waitBody w recordedExit) = some 1 ∧
    (waitBody w recordedExit).countP isCloseFinal = 1 ∧
    (waitBody w recordedExit).getLast? = some .closeFinal := by
  refine ⟨rfl, rfl, ?_, rfl, ?_, rfl⟩
  · simp [waitBody, List.countP_cons, isPublishFinal]
  · simp [waitBody, List.countP_cons, isCloseFinal]

/-! ### Claim C2: pipe-acquisition failure -/

/-- C2 counterexample: with a stderr pipe that fails to open, `Execute`
still returns a nil error — not the pipe error — and still produces the
event channel. -/
theorem C2_Execute_swallows_pipe_error :
    (Execute false envStderrPipeFail trivialSched).retErr = none ∧
    (Execute false envStderrPipeFail trivialSched).retErr ≠
      some { msg := "errStderrPipe" } ∧
    (Execute false envStderrPipeFail trivialSched).channelProduced = true := by
  refine ⟨rfl, by simp [Execute], rfl⟩

/-- C2 (amended): the stderr pipe-acquisition error is returned
synchronously by the internal `start` step, which produces no streams;
`Execute` itself, which runs `start` inside its reader goroutine,
returns a nil error and a channel regardless, and on this path the
goroutine performs no action on that channel at all (no event is ever
delivered and the channel is never closed). -/
theorem C2_start_returns_pipe_error (env : ProcessEnv) (sched : Sched)
    (stream : Bool) (po : PipeSource) (e : Err)
    (hout : env.stdoutPipe = .ok po) (herr : env.stderrPipe = .error e) :
    start env = .error e ∧
    (Execute stream env sched).retErr = none ∧
    (Execute stream env sched).channelProduced = true ∧
    (Execute stream env sched).trace = [] := by
  have hs : start env = .error e := by
    simp [start, hout, herr]
  exact ⟨hs, rfl, rfl, by simp [Execute, resultReader, hs]⟩

/-- C2 witness: the concrete failing-stderr-pipe environment. -/
theorem C2_start_returns_pipe_error_witness :
    start envStderrPipeFail = .error { msg := "errStderrPipe" } ∧
    (Execute false envStderrPipeFail trivialSched).trace = [] := by
  have h := C2_start_returns_pipe_error envStderrPipeFail trivialSched false
    { lines := ["test"], readErr := none } { msg := "errStderrPipe" } rfl rfl
  exact ⟨h.1, h.2.2.2⟩

/-! ### Claim C4: closing of the public event channel -/

/-- The streaming forward loop never closes the channel. -/
theorem countClose_forward (done : Nat → Bool) (l : List commandEvent) (i : Nat) :
    countClose (forward done l i) = 0 := by
  induction l generalizing i with
  | nil => rfl
  | cons x xs ih =>
    by_cases hd : done i
    · simp [forward, hd, countClose]
    · simp only [forward, hd, if_false, Bool.false_eq_true, if_neg, not_false_iff,
        countClose, List.countP_cons]
      simpa [countClose] using ih (i + 1)

/-- C4 counterexample: on the start-failure path the `resultReader`
goroutine returns before reaching `close(outStream)`: the public event
channel is closed zero times, not exactly once. -/
theorem C4_channel_not_closed_on_start_failure :
    countClose (Execute true envStartFail trivialSched).trace = 0 ∧
    countClose (Execute true envStartFail trivialSched).trace ≠ 1 := by
  constructor <;> decide

/-- C4 (amended): when `start` succeeds, the channel is closed exactly
once and the close is the final action (no event follows it) both in
streaming mode — with or without mid-stream cancellation — and in
buffering mode when the final send's `select` does not observe
`ctx.Done()`; but on the start-failure path, and in buffering mode when
the final send's `select` observes the cancelled context, the channel is
never closed. -/
theorem C4_channel_close_per_path (stream : Bool) (env : ProcessEnv) (sched : Sched) :
    ((∃ p, start env = .ok p) → stream = true →
      countClose (Execute stream env sched).trace = 1 ∧
      (Execute stream env sched).trace.getLast? = some .closeOut) ∧
    ((∃ p, start env = .ok p) → stream = false → sched.ctxDoneFinal = false →
      countClose (Execute stream env sched).trace = 1 ∧
      (Execute stream env sched).trace.getLast? = some .closeOut) ∧
    ((∃ e, start env = .error e) →
      countClose (Execute stream env sched).trace = 0) ∧
    ((∃ p, start env = .ok p) → stream = false → sched.ctxDoneFinal = true →
      countClose (Execute stream env sched).trace = 0) := by
  refine ⟨?_, ?_, ?_, ?_⟩
  · rintro ⟨p, hp⟩ rfl
    constructor
    · simp [Execute, resultReader, hp, countClose, List.countP_append,
        countClose_forward (sched.ctxDoneAt) sched.merged 0]
      have := countClose_forward sched.ctxDoneAt sched.merged 0
      simpa [countClose] using this
    · simp [Execute, resultReader, hp]
  · rintro ⟨p, hp⟩ rfl hfin
    constructor
    · simp [Execute, resultReader, hp, hfin, countClose, List.countP_cons]
    · simp [Execute, resultReader, hp, hfin]
  · rintro ⟨e, he⟩
    simp [Execute, resultReader, he, countClose]
  · rintro ⟨p, hp⟩ rfl hfin
    simp [Execute, resultReader, hp, hfin, countClose, List.countP_cons]

/-- C4 witness: concrete instances of the amended statement — a healthy
streaming run closes the channel exactly once as its last action, and a
buffering run whose final send observes the cancelled context never
closes it. -/
theorem C4_channel_close_per_path_witness :
    (countClose (Execute true (envFrom ["a"] ["b"]) trivialSched).trace = 1 ∧
      (Execute true (envFrom ["a"] ["b"]) trivialSched).trace.getLast? =
        some .closeOut) ∧
    countClose (Execute false (envFrom ["a"] ["b"]) (cancelFinalSched [])).trace = 0 := by
  constructor
  · exact (C4_channel_close_per_path true (envFrom ["a"] ["b"]) trivialSched).1
      ⟨_, rfl⟩ rfl
  · exact (C4_channel_close_per_path false (envFrom ["a"] ["b"])
      (cancelFinalSched [])).2.2.2 ⟨_, rfl⟩ rfl rfl

/-! ### Claim C10: the aggregated event's hard-coded error -/

/-- C10: whenever a buffering execution reaches its aggregation step
(i.e. `start` succeeded), exactly one event is sent on the public
channel and its `Error()` is the non-nil error with message `no error`,
even for a perfectly successful execution. -/
theorem C10_aggregated_event_error_is_no_error (env : ProcessEnv) (sched : Sched)
    (h : ∃ p, start env = .ok p) :
    (sentEvents (Execute false env sched).trace).length = 1 ∧
    ∀ ev ∈ sentEvents (Execute false env sched).trace,
      ev.err = some { msg := "no error" } ∧ ev.err ≠ none := by
  obtain ⟨p, hp⟩ := h
  by_cases hfin : sched.ctxDoneFinal
  · constructor
    · simp [Execute, resultReader, hp, hfin, sentEvents]
    · intro ev hev
      simp [Execute, resultReader, hp, hfin, sentEvents] at hev
      simp [hev, newCommandEvent]
  · constructor
    · simp [Execute, resultReader, hp, hfin, sentEvents]
    · intro ev hev
      simp [Execute, resultReader, hp, hfin, sentEvents] at hev
      simp [hev, newCommandEvent]

/-- C10 witness: a clean `echo`-like run (stdout `hello`, empty stderr,
exit 0) still gets the `no error` error on its single aggregated
event. -/
theorem C10_aggregated_event_error_witness :
    (sentEvents (Execute false (envFrom ["hello"] [])
        (noCancelSched (multiplex (readStream { lines := ["hello"], readErr := none } false)))).trace).length = 1 ∧
    ∀ ev ∈ sentEvents (Execute false (envFrom ["hello"] [])
        (noCancelSched (multiplex (readStream { lines := ["hello"], readErr := none } false)))).trace,
      ev.err = some { msg := "no error" } ∧ ev.err ≠ none :=
  C10_aggregated_event_error_is_no_error (envFrom ["hello"] []) _ ⟨_, rfl⟩

/-! ### Interleaving lemmas (fan-in of the two multiplex goroutines) -/

/-- An interleaving is a permutation of the concatenation of its
sources. -/
theorem Interleaving.perm {α : Type} {xs ys zs : List α}
    (h : Interleaving xs ys zs) : zs.Perm (xs ++ ys) := by
  induction h with
  | nil => simp
  | left h ih => exact ih.cons _
  | right h ih => exact (ih.cons _).trans List.perm_middle.symm

/-- Fan-in is symmetric in its sources. -/
theorem Interleaving.comm {α : Type} {xs ys zs : List α}
    (h : Interleaving xs ys zs) : Interleaving ys xs zs := by
  induction h with
  | nil => exact .nil
  | left h ih => exact .right ih
  | right h ih => exact .left ih

/-- Filtering an interleaving with a function that rejects everything
from the second source recovers exactly the filtered first source — in
its original order. -/
theorem Interleaving.filterMap_right_none {α β : Type} (f : α → Option β)
    {xs ys zs : List α} (h : Interleaving xs ys zs)
    (hy : ∀ y ∈ ys, f y = none) : zs.filterMap f = xs.filterMap f := by
  revert hy
  induction h with
  | nil => intro hy; rfl
  | @left x xs ys zs hi ih =>
    intro hy
    simp only [List.filterMap_cons]
    rw [ih hy]
  | @right y xs ys zs hi ih =>
    intro hy
    have h0 : f y = none := hy y (List.mem_cons_self y ys)
    simp only [List.filterMap_cons, h0]
    exact ih (fun z hz => hy z (List.mem_cons_of_mem y hz))

/-- A clean (error-free) stdout reader, merged: one stdout-tagged event
per line, in order, all with nil error. -/
theorem multiplex_readStream_stdout (l : List String) :
    multiplex (readStream { lines := l, readErr := none } false) =
      l.map stdoutEvent := by
  simp only [readStream, List.append_nil, multiplex, List.map_map]
  rfl

/-- A clean (error-free) stderr reader, merged. -/
theorem multiplex_readStream_stderr (l : List String) :
    multiplex (readStream { lines := l, readErr := none } true) =
      l.map stderrEvent := by
  simp only [readStream, List.append_nil, multiplex, List.map_map]
  rfl

/-- A stdout reader that hits a read error after its lines, merged: the
line events, then one empty-text stdout-tagged event whose error has
been stripped to nil by `multiplex`. -/
theorem multiplex_readStream_stdout_err (l : List String) (e : Err) :
    multiplex (readStream { lines := l, readErr := some e } false) =
      l.map stdoutEvent ++ [stdoutEvent ""] := by
  simp only [readStream, multiplex, List.map_append, List.map_map]
  rfl

/-- Extracting stdout texts from pure stdout events. -/
theorem stdoutTexts_map_stdoutEvent (l : List String) :
    stdoutTexts (l.map stdoutEvent) = l := by
  induction l with
  | nil => rfl
  | cons x xs ih =>
    have hx : stdoutTexts (stdoutEvent x :: xs.map stdoutEvent) =
        x :: stdoutTexts (xs.map stdoutEvent) := rfl
    simp only [List.map_cons, hx, ih]

/-- Extracting stderr texts from pure stderr events. -/
theorem stderrTexts_map_stderrEvent (l : List String) :
    stderrTexts (l.map stderrEvent) = l := by
  induction l with
  | nil => rfl
  | cons x xs ih =>
    have hx : stderrTexts (stderrEvent x :: xs.map stderrEvent) =
        x :: stderrTexts (xs.map stderrEvent) := rfl
    simp only [List.map_cons, hx, ih]

/-- Extracting all line texts from stdout then stderr events. -/
theorem lineTexts_map_append (out errL : List String) :
    lineTexts (out.map stdoutEvent ++ errL.map stderrEvent) = out ++ errL := by
  have h1 : ∀ l : List String, lineTexts (l.map stdoutEvent) = l := by
    intro l
    induction l with
    | nil => rfl
    | cons x xs ih =>
      have hx : lineTexts (stdoutEvent x :: xs.map stdoutEvent) =
          x :: lineTexts (xs.map stdoutEvent) := rfl
      simp only [List.map_cons, hx, ih]
  have h2 : ∀ l : List String, lineTexts (l.map stderrEvent) = l := by
    intro l
    induction l with
    | nil => rfl
    | cons x xs ih =>
      have hx : lineTexts (stderrEvent x :: xs.map stderrEvent) =
          x :: lineTexts (xs.map stderrEvent) := rfl
      simp only [List.map_cons, hx, ih]
  have happ : lineTexts (out.map stdoutEvent ++ errL.map stderrEvent) =
      lineTexts (out.map stdoutEvent) ++ lineTexts (errL.map stderrEvent) :=
    List.filterMap_append _ _ _
  rw [happ, h1, h2]

/-- The per-origin order-preservation core: an interleaving of clean
stdout events with stderr events projects, stdout-side, to exactly the
stdout lines in order. -/
theorem stdoutTexts_of_interleaving {out errL : List String}
    {zs : List commandEvent}
    (h : Interleaving (out.map stdoutEvent) (errL.map stderrEvent) zs) :
    stdoutTexts zs = out := by
  have hnone : ∀ y ∈ errL.map stderrEvent,
      (fun ev => match ev.data with
        | .line sd => if sd.isStderr then none else some sd.data
        | .result _ => none) y = none := by
    intro y hy
    obtain ⟨t, _, rfl⟩ := List.mem_map.mp hy
    rfl
  have hfm := Interleaving.filterMap_right_none _ h hnone
  calc stdoutTexts zs = stdoutTexts (out.map stdoutEvent) := hfm
    _ = out := stdoutTexts_map_stdoutEvent out

/-- The stderr-side projection of the same interleaving. -/
theorem stderrTexts_of_interleaving {out errL : List String}
    {zs : List commandEvent}
    (h : Interleaving (out.map stdoutEvent) (errL.map stderrEvent) zs) :
    stderrTexts zs = errL := by
  have hnone : ∀ y ∈ out.map stdoutEvent,
      (fun ev => match ev.data with
        | .line sd => if sd.isStderr then some sd.data else none
        | .result _ => none) y = none := by
    intro y hy
    obtain ⟨t, _, rfl⟩ := List.mem_map.mp hy
    rfl
  have hfm := Interleaving.filterMap_right_none _ h.comm hnone
  calc stderrTexts zs = stderrTexts (errL.map stderrEvent) := hfm
    _ = errL := stderrTexts_map_stderrEvent errL

/-- With no cancellation the streaming forward loop sends every merged
event. -/
theorem forward_no_cancel (l : List commandEvent) (i : Nat) :
    forward (fun _ => false) l i = l.map .sendOut := by
  induction l generalizing i with
  | nil => rfl
  | cons x xs ih => simp [forward, ih]

/-- The events observed on `outStream` when everything was forwarded and
the channel closed. -/
theorem sentEvents_map_sendOut (l : List commandEvent) :
    sentEvents (l.map .sendOut ++ [.closeOut]) = l := by
  induction l with
  | nil => rfl
  | cons x xs ih =>
    have hx : sentEvents (ExecAction.sendOut x :: (xs.map .sendOut ++ [.closeOut])) =
        x :: sentEvents (xs.map .sendOut ++ [.closeOut]) := rfl
    simp only [List.map_cons, List.cons_append, hx, ih]

/-- The buffering accumulation over an interleaving of clean stdout and
stderr events yields the two line sequences in production order. -/
theorem foldl_accumEvent_interleaving {out errL : List String}
    {zs : List commandEvent}
    (h : Interleaving (out.map stdoutEvent) (errL.map stderrEvent) zs) :
    ∀ a b : List String, zs.foldl accumEvent (a, b) = (a ++ out, b ++ errL) := by
  have key : ∀ (xs ys zs : List commandEvent), Interleaving xs ys zs →
      ∀ (out errL : List String), xs = out.map stdoutEvent →
      ys = errL.map stderrEvent →
      ∀ a b : List String, zs.foldl accumEvent (a, b) = (a ++ out, b ++ errL) := by
    intro xs ys zs hI
    induction hI with
    | nil =>
      intro out errL hx hy a b
      have hx2 := List.map_eq_nil_iff.mp hx.symm
      have hy2 := List.map_eq_nil_iff.mp hy.symm
      subst hx2; subst hy2
      simp
    | @left x xs ys zs hi ih =>
      intro out errL hx hy a b
      cases out with
      | nil => simp at hx
      | cons t out2 =>
        simp only [List.map_cons, List.cons.injEq] at hx
        obtain ⟨hx1, hx2⟩ := hx
        subst hx1
        have hstep : accumEvent (a, b) (stdoutEvent t) = (a ++ [t], b) := rfl
        rw [List.foldl_cons, hstep, ih out2 errL hx2 hy]
        simp
    | @right y xs ys zs hi ih =>
      intro out errL hx hy a b
      cases errL with
      | nil => simp at hy
      | cons t errL2 =>
        simp only [List.map_cons, List.cons.injEq] at hy
        obtain ⟨hy1, hy2⟩ := hy
        subst hy1
        have hstep : accumEvent (a, b) (stderrEvent t) = (a, b ++ [t]) := rfl
        rw [List.foldl_cons, hstep, ih out errL2 hx hy2]
        simp
  exact key _ _ _ h out errL rfl rfl

/-! ### Claim C6: streaming completeness and per-stream order -/

/-- C6: for every streaming execution with no cancellation and clean
streams, whatever order the fan-in chose, the delivered events project
per origin to exactly the produced stdout (resp. stderr) lines in
production order, and the multiset of all delivered line texts equals
the multiset of all produced lines. -/
theorem C6_streaming_lines_complete (out errL : List String)
    (merged : List commandEvent)
    (h : Interleaving (multiplex (readStream { lines := out, readErr := none } false))
        (multiplex (readStream { lines := errL, readErr := none } true)) merged) :
    stdoutTexts (sentEvents
        (Execute true (envFrom out errL) (noCancelSched merged)).trace) = out ∧
    stderrTexts (sentEvents
        (Execute true (envFrom out errL) (noCancelSched merged)).trace) = errL ∧
    (lineTexts (sentEvents
        (Execute true (envFrom out errL) (noCancelSched merged)).trace) : Multiset String)
      = ((out ++ errL : List String) : Multiset String) := by
  rw [multiplex_readStream_stdout, multiplex_readStream_stderr] at h
  have hstart : start (envFrom out errL) =
      .ok (readStream { lines := out, readErr := none } false,
           readStream { lines := errL, readErr := none } true) := rfl
  have htr : (Execute true (envFrom out errL) (noCancelSched merged)).trace =
      merged.map .sendOut ++ [.closeOut] := by
    simp [Execute, resultReader, hstart, noCancelSched, forward_no_cancel]
  have hsent : sentEvents
      (Execute true (envFrom out errL) (noCancelSched merged)).trace = merged := by
    rw [htr, sentEvents_map_sendOut]
  refine ⟨?_, ?_, ?_⟩
  · rw [hsent]; exact stdoutTexts_of_interleaving h
  · rw [hsent]; exact stderrTexts_of_interleaving h
  · rw [hsent]
    have hperm : (lineTexts merged).Perm
        (lineTexts (out.map stdoutEvent ++ errL.map stderrEvent)) :=
      h.perm.filterMap _
    rw [Multiset.coe_eq_coe, ← lineTexts_map_append out errL]
    exact hperm

/-- C6 witness: the run producing stdout `0`, `2` and stderr `1`, with
the fan-in interleaving them as `0`, `1`, `2`. -/
theorem C6_streaming_lines_complete_witness :
    stdoutTexts (sentEvents (Execute true (envFrom ["0", "2"] ["1"])
        (noCancelSched [stdoutEvent "0", stderrEvent "1", stdoutEvent "2"])).trace)
      = ["0", "2"] ∧
    stderrTexts (sentEvents (Execute true (envFrom ["0", "2"] ["1"])
        (noCancelSched [stdoutEvent "0", stderrEvent "1", stdoutEvent "2"])).trace)
      = ["1"] ∧
    (lineTexts (sentEvents (Execute true (envFrom ["0", "2"] ["1"])
        (noCancelSched [stdoutEvent "0", stderrEvent "1", stdoutEvent "2"])).trace)
      : Multiset String)
      = (((["0", "2"] : List String) ++ ["1"] : List String) : Multiset String) :=
  C6_streaming_lines_complete ["0", "2"] ["1"]
    [stdoutEvent "0", stderrEvent "1", stdoutEvent "2"]
    (.left (.right (.left .nil)))

/-! ### Claim C7: buffering emits one complete aggregated event -/

/-- C7: for every buffering execution that runs to completion with no
cancellation and clean streams, the goroutine's whole channel activity
is exactly one aggregated event — whose stdout and stderr sequences are
the produced lines of that stream in production order — followed by the
close of the channel. -/
theorem C7_buffering_single_aggregated_event (out errL : List String)
    (merged : List commandEvent)
    (h : Interleaving (multiplex (readStream { lines := out, readErr := none } false))
        (multiplex (readStream { lines := errL, readErr := none } true)) merged) :
    (Execute false (envFrom out errL) (noCancelSched merged)).trace =
      [.sendOut (newCommandEvent (.result (newCommandResult out errL))
          (some { msg := "no error" })),
       .closeOut] := by
  rw [multiplex_readStream_stdout, multiplex_readStream_stderr] at h
  have hstart : start (envFrom out errL) =
      .ok (readStream { lines := out, readErr := none } false,
           readStream { lines := errL, readErr := none } true) := rfl
  have hacc := foldl_accumEvent_interleaving h [] []
  simp only [List.nil_append] at hacc
  simp [Execute, resultReader, hstart, noCancelSched, hacc,
    newCommandResult, newCommandEvent]

/-- C7 witness: the same concrete `0`/`1`/`2` run, buffered. -/
theorem C7_buffering_single_aggregated_event_witness :
    (Execute false (envFrom ["0", "2"] ["1"])
        (noCancelSched [stdoutEvent "0", stderrEvent "1", stdoutEvent "2"])).trace =
      [.sendOut (newCommandEvent (.result (newCommandResult ["0", "2"] ["1"]))
          (some { msg := "no error" })),
       .closeOut] :=
  C7_buffering_single_aggregated_event ["0", "2"] ["1"]
    [stdoutEvent "0", stderrEvent "1", stdoutEvent "2"]
    (.left (.right (.left .nil)))

/-! ### Claim C3: mid-stream read errors -/

/-- C3 counterexample: the stdout reader ends in a read error; the
reader-level sequence does contain an element carrying that error, but
after the merge step every event offered to the caller has a nil error:
the read error never reaches the event stream. -/
theorem C3_read_error_dropped :
    (∃ s ∈ readStream { lines := ["line1"], readErr := some { msg := "errRead" } } false,
        s.err = some { msg := "errRead" }) ∧
    ∀ ev ∈ sentEvents (Execute true envReadErr (noCancelSched
        (multiplex (readStream
          { lines := ["line1"], readErr := some { msg := "errRead" } } false)))).trace,
      ev.err = none := by
  constructor <;> decide

/-- C3 (amended): a mid-stream read error on stdout yields, after the
merge, exactly one extra stdout-tagged event with empty text whose error
field has been stripped to nil; the sibling stderr stream is not aborted
(its lines are all still delivered, in order); and no event delivered to
the caller carries any error at all. -/
theorem C3_read_error_stripped_in_merge (out errL : List String) (e : Err)
    (merged : List commandEvent)
    (h : Interleaving (multiplex (readStream { lines := out, readErr := some e } false))
        (multiplex (readStream { lines := errL, readErr := none } true)) merged) :
    merged.Perm ((out.map stdoutEvent ++ [stdoutEvent ""]) ++ errL.map stderrEvent) ∧
    stderrTexts merged = errL ∧
    ∀ ev ∈ merged, ev.err = none := by
  rw [multiplex_readStream_stdout_err, multiplex_readStream_stderr] at h
  refine ⟨h.perm, ?_, ?_⟩
  · have hnone : ∀ y ∈ out.map stdoutEvent ++ [stdoutEvent ""],
        (fun ev => match ev.data with
          | .line sd => if sd.isStderr then some sd.data else none
          | .result _ => none) y = none := by
      intro y hy
      rcases List.mem_append.mp hy with hy1 | hy1
      · obtain ⟨t, _, rfl⟩ := List.mem_map.mp hy1
        rfl
      · simp only [List.mem_singleton] at hy1
        subst hy1; rfl
    have hfm := Interleaving.filterMap_right_none _ h.comm hnone
    calc stderrTexts merged = stderrTexts (errL.map stderrEvent) := hfm
      _ = errL := stderrTexts_map_stderrEvent errL
  · intro ev hev
    have hm := (h.perm.mem_iff).mp hev
    rcases List.mem_append.mp hm with h1 | h1
    · rcases List.mem_append.mp h1 with h2 | h2
      · obtain ⟨t, _, rfl⟩ := List.mem_map.mp h2; rfl
      · simp only [List.mem_singleton] at h2; subst h2; rfl
    · obtain ⟨t, _, rfl⟩ := List.mem_map.mp h1; rfl

/-- C3 witness: stdout produces `line1` then fails reading; stderr
produces `w`; the merged order is `line1`, `w`, then the stripped
error event. -/
theorem C3_read_error_stripped_witness :
    ([stdoutEvent "line1", stderrEvent "w", stdoutEvent ""] : List commandEvent).Perm
      ((["line1"].map stdoutEvent ++ [stdoutEvent ""]) ++ ["w"].map stderrEvent) ∧
    stderrTexts [stdoutEvent "line1", stderrEvent "w", stdoutEvent ""] = ["w"] ∧
    ∀ ev ∈ ([stdoutEvent "line1", stderrEvent "w", stdoutEvent ""] : List commandEvent),
      ev.err = none :=
  C3_read_error_stripped_in_merge ["line1"] ["w"] { msg := "errRead" }
    [stdoutEvent "line1", stderrEvent "w", stdoutEvent ""]
    (.left (.right (.left .nil)))
